import Mathlib

/-!
Shallow embedding of the zero-dimensional energy-balance model of
`EnergyBalance_Stochastic_v2.ipynb`, with theorems settling the spec's
claims about it.  Machine floating-point arithmetic is modelled by exact
real arithmetic; the global NumPy random stream is modelled by an
explicit sequence of standard-normal draws consumed in program order.
-/

open Real

/-! ### Physical parameters (notebook cell "Define physical parameters") -/

noncomputable def S0 : ℝ := 1368.0

noncomputable def T0 : ℝ := 288.0

noncomputable def T_init : ℝ := 240.0

noncomputable def a_init : ℝ := 0.35

noncomputable def emissivity : ℝ := 0.61

noncomputable def sigma : ℝ := 5.67e-8

noncomputable def delta : ℝ := 1e-2

/-! ### Flux model (notebook cell "Model definitions") -/

/-- `AlbedoEq(T)`: temperature-dependent equilibrium albedo, a smooth
step between ice (`a_ice = 0.7`) and water (`a_water = 0.3`) albedo with
transition centre `Tc = 265` and width `wT = 20`. -/
noncomputable def AlbedoEq (T : ℝ) : ℝ :=
  let a_ice : ℝ := 0.7
  let a_water : ℝ := 0.3
  let Tc : ℝ := 265.0
  let wT : ℝ := 20.0
  let A := (a_ice + a_water) / 2
  let B := (a_ice - a_water) / 2
  A - B * Real.tanh ((T - Tc) / (wT / 2))

/-- `IncomingRad(albedo)`: incoming radiation scaled by the solar
constant `S0` (dimensionless). -/
noncomputable def IncomingRad (albedo : ℝ) : ℝ := (1.0 - albedo) / 4

/-- `OutgoingRad(T)`: outgoing Stefan–Boltzmann radiation scaled by the
solar constant `S0` (dimensionless). -/
noncomputable def OutgoingRad (T : ℝ) : ℝ := (emissivity * sigma / S0) * T ^ 4

/-- `dT_dt(y, albedo)`: the temperature derivative of the energy-balance
ODE, incoming minus outgoing radiation, each pre-scaled by `T0`. -/
noncomputable def dT_dt (y albedo : ℝ) : ℝ :=
  let T := y
  let rin := T0 * IncomingRad albedo
  let rout := T0 * OutgoingRad T
  let dTdt := rin - rout
  dTdt

/-- `da_dt(T, y)`: first-order relaxation of the albedo toward the
instantaneous equilibrium albedo, at rate `delta`. -/
noncomputable def da_dt (T y : ℝ) : ℝ :=
  let a := y
  let aeq := AlbedoEq T
  let dadt := delta * (aeq - a)
  dadt

/-- `dState_dt(State, t)`: the coupled system in vector form,
`State.1` the temperature and `State.2` the albedo. -/
noncomputable def dState_dt (State : ℝ × ℝ) (_t : ℝ) : ℝ × ℝ :=
  (dT_dt State.1 State.2, da_dt State.1 State.2)

/-- `flux_diff(T)`: net flux at albedo equilibrium, whose roots are the
fixed points of the climate system. -/
noncomputable def flux_diff (T : ℝ) : ℝ := IncomingRad (AlbedoEq T) - OutgoingRad T

/-! ### Helper lemmas about `Real.tanh` -/

/-- `tanh` in terms of `exp`: `tanh x = 1 - 2 / (exp (2 x) + 1)`. -/
lemma tanh_eq_one_sub (x : ℝ) :
    Real.tanh x = 1 - 2 / (Real.exp (2 * x) + 1) := by
  have hx : 0 < Real.exp x := Real.exp_pos x
  have hx0 : Real.exp x ≠ 0 := ne_of_gt hx
  have h2 : Real.exp (2 * x) = Real.exp x * Real.exp x := by
    rw [two_mul, Real.exp_add]
  have hden : Real.exp x + (Real.exp x)⁻¹ ≠ 0 := by positivity
  have hden2 : Real.exp x * Real.exp x + 1 ≠ 0 := by positivity
  rw [Real.tanh_eq_sinh_div_cosh, Real.sinh_eq, Real.cosh_eq, Real.exp_neg, h2]
  field_simp
  ring

/-- `tanh` is strictly monotone. -/
lemma tanh_strictMono : StrictMono Real.tanh := by
  intro x y hxy
  rw [tanh_eq_one_sub, tanh_eq_one_sub]
  have hx : 0 < Real.exp (2 * x) + 1 := by positivity
  have hy : 0 < Real.exp (2 * y) + 1 := by positivity
  have hlt : Real.exp (2 * x) + 1 < Real.exp (2 * y) + 1 := by
    have : Real.exp (2 * x) < Real.exp (2 * y) :=
      Real.exp_lt_exp.mpr (by linarith)
    linarith
  have := div_lt_div_of_pos_left (by norm_num : (0:ℝ) < 2) hx hlt
  linarith

/-- `tanh x < 1`. -/
lemma tanh_lt_one' (x : ℝ) : Real.tanh x < 1 := by
  rw [tanh_eq_one_sub]
  have hx : 0 < Real.exp (2 * x) + 1 := by positivity
  have : 0 < 2 / (Real.exp (2 * x) + 1) := by positivity
  linarith

/-- `-1 < tanh x`. -/
lemma neg_one_lt_tanh' (x : ℝ) : -1 < Real.tanh x := by
  rw [tanh_eq_one_sub]
  have hx : 0 < Real.exp (2 * x) + 1 := by positivity
  have h1 : 2 / (Real.exp (2 * x) + 1) < 2 := by
    rw [div_lt_iff₀ hx]
    nlinarith [Real.exp_pos (2 * x)]
  linarith

/-! ### Claim theorems: flux model -/

/-- C4: `AlbedoEq T = A - B*tanh((T - Tc)/(wT/2))` with
`A = (a_ice + a_water)/2`, `B = (a_ice - a_water)/2`; it is monotonically
non-increasing in `T`; and every value lies in `[a_water, a_ice] = [0.3, 0.7]`. -/
theorem albedoEquilibrium_form_mono_bounded :
    (∀ T : ℝ, AlbedoEq T =
      (0.7 + 0.3) / 2 - (0.7 - 0.3) / 2 * Real.tanh ((T - 265.0) / (20.0 / 2))) ∧
    (∀ T1 T2 : ℝ, T1 ≤ T2 → AlbedoEq T2 ≤ AlbedoEq T1) ∧
    (∀ T : ℝ, 0.3 ≤ AlbedoEq T ∧ AlbedoEq T ≤ 0.7) := by
  refine ⟨fun T => rfl, fun T1 T2 h => ?_, fun T => ?_⟩
  · have hmono : Real.tanh ((T1 - 265.0) / (20.0 / 2)) ≤
        Real.tanh ((T2 - 265.0) / (20.0 / 2)) := by
      apply tanh_strictMono.monotone
      have h10 : (0:ℝ) ≤ 20.0 / 2 := by norm_num
      apply div_le_div_of_nonneg_right _ h10
      linarith
    show (0.7 + 0.3) / 2 - (0.7 - 0.3) / 2 * Real.tanh ((T2 - 265.0) / (20.0 / 2)) ≤
      (0.7 + 0.3) / 2 - (0.7 - 0.3) / 2 * Real.tanh ((T1 - 265.0) / (20.0 / 2))
    nlinarith
  · have h1 := tanh_lt_one' ((T - 265.0) / (20.0 / 2))
    have h2 := neg_one_lt_tanh' ((T - 265.0) / (20.0 / 2))
    constructor
    · show (0.3:ℝ) ≤ (0.7 + 0.3) / 2 - (0.7 - 0.3) / 2 * Real.tanh ((T - 265.0) / (20.0 / 2))
      nlinarith
    · show (0.7 + 0.3) / 2 - (0.7 - 0.3) / 2 * Real.tanh ((T - 265.0) / (20.0 / 2)) ≤ (0.7:ℝ)
      nlinarith

/-- C4 witness: monotonicity instance at concrete temperatures. -/
theorem albedoEquilibrium_mono_witness : AlbedoEq 300 ≤ AlbedoEq 250 :=
  albedoEquilibrium_form_mono_bounded.2.1 250 300 (by norm_num)

/-- C7: the net flux `flux_diff T` is `IncomingRad (AlbedoEq T) - OutgoingRad T`,
where `IncomingRad albedo = (1 - albedo)/4` for every real albedo and
`OutgoingRad T = (emissivity * sigma / S0) * T^4`; all are total real
functions. -/
theorem netFlux_decomposition :
    (∀ T : ℝ, flux_diff T = IncomingRad (AlbedoEq T) - OutgoingRad T) ∧
    (∀ albedo : ℝ, IncomingRad albedo = (1 - albedo) / 4) ∧
    (∀ T : ℝ, OutgoingRad T = emissivity * sigma / S0 * T ^ 4) :=
  ⟨fun _ => rfl, fun a => by norm_num [IncomingRad], fun _ => rfl⟩

/-- C8: `dT_dt T albedo` is the incoming-minus-outgoing flux difference with
both sides pre-scaled by the reference temperature `T0`. -/
theorem temperatureDerivative_eq :
    ∀ T albedo : ℝ, dT_dt T albedo = T0 * IncomingRad albedo - T0 * OutgoingRad T :=
  fun _ _ => rfl

/-! ### Stochastic ensemble simulator (notebook cells "Noise function" and
"Euler–Maruyama method")

The notebook draws noise from NumPy's global random stream:
`dW(delta_t)` returns `np.random.normal(loc = 0.0, scale = np.sqrt(delta_t))`,
a fresh draw at each call.  We model the global stream as an abstract
sequence `ω : ℕ → ℝ` of its successive standard-normal draws (the iid
`N(0,1)` distribution of the entries is the probabilistic interpretation
of `ω` and is not itself formalised); the `n`-th call of `dW` with step
`delta_t` then yields `Real.sqrt delta_t * ω n`, a zero-mean Gaussian
draw of standard deviation `sqrt delta_t`.  The loop consumes two draws
per (run, step): first the temperature draw, then the albedo draw, so the
draw consumed for variable `j` (0 = temperature, 1 = albedo) at step
`i ≥ 1` of run `k` sits at stream position `drawIndex numSteps k i j`. -/

/-- Stream position of the noise draw for variable `j` (0 = temperature,
1 = albedo) at time step `i ≥ 1` of run `k`, when each run makes
`numSteps - 1` time steps.  Mirrors the notebook's sequential consumption
order of the global stream. -/
def drawIndex (numSteps k i j : ℕ) : ℕ :=
  2 * ((numSteps - 1) * k + (i - 1)) + j

/-- `dW(delta_t)` at the `n`-th position of the noise stream `ω`:
a zero-mean Gaussian draw with standard deviation `sqrt delta_t`,
modelled as `sqrt delta_t` times the `n`-th standard-normal draw. -/
noncomputable def dW (ω : ℕ → ℝ) (n : ℕ) (delta_t : ℝ) : ℝ :=
  Real.sqrt delta_t * ω n

/-- One run of the Euler–Maruyama loop: `stoc ω dt etaT etaA Tini aini
numSteps k i` is the pair `(Tstoc[k,i], Astoc[k,i])` produced by the
notebook's double loop, where `ω` is the modelled global noise stream. -/
noncomputable def stoc (ω : ℕ → ℝ) (dt etaT etaA Tini aini : ℝ)
    (numSteps k : ℕ) : ℕ → ℝ × ℝ
  | 0 => (Tini, aini)
  | i + 1 =>
    let p := stoc ω dt etaT etaA Tini aini numSteps k i
    (p.1 + dT_dt p.1 p.2 * dt + etaT * dW ω (drawIndex numSteps k (i + 1) 0) dt,
     p.2 + da_dt p.1 p.2 * dt + etaA * dW ω (drawIndex numSteps k (i + 1) 1) dt)

/-- `Tstoc[k,i]`: the temperature component of run `k` at step `i`. -/
noncomputable def Tstoc (ω : ℕ → ℝ) (dt etaT etaA Tini aini : ℝ)
    (numSteps k i : ℕ) : ℝ :=
  (stoc ω dt etaT etaA Tini aini numSteps k i).1

/-- `Astoc[k,i]`: the albedo component of run `k` at step `i`. -/
noncomputable def Astoc (ω : ℕ → ℝ) (dt etaT etaA Tini aini : ℝ)
    (numSteps k i : ℕ) : ℝ :=
  (stoc ω dt etaT etaA Tini aini numSteps k i).2

/-- Deterministic forward-Euler integration of the coupled system,
the scheme the spec says the zero-noise simulator degenerates to. -/
noncomputable def euler (dt Tini aini : ℝ) : ℕ → ℝ × ℝ
  | 0 => (Tini, aini)
  | i + 1 =>
    let p := euler dt Tini aini i
    (p.1 + dT_dt p.1 p.2 * dt, p.2 + da_dt p.1 p.2 * dt)

/-- Helper: `drawIndex` is injective on the grid of valid draws
(runs `k`, steps `1 ≤ i < numSteps`, variables `j < 2`). -/
lemma drawIndex_injOn (numSteps k i j k' i' j' : ℕ)
    (hi1 : 1 ≤ i) (hi : i < numSteps) (hi1' : 1 ≤ i') (hi' : i' < numSteps)
    (hj : j < 2) (hj' : j' < 2)
    (hne : (k, i, j) ≠ (k', i', j')) :
    drawIndex numSteps k i j ≠ drawIndex numSteps k' i' j' := by
  intro heq
  apply hne
  unfold drawIndex at heq
  set m := numSteps - 1 with hm
  have him : i - 1 < m := by omega
  have him' : i' - 1 < m := by omega
  have hj_eq : j = j' := by omega
  subst hj_eq
  have hbase : m * k + (i - 1) = m * k' + (i' - 1) := by omega
  have hk : k = k' := by
    have h1 : (m * k + (i - 1)) / m = k := by
      rw [Nat.mul_add_div (by omega : 0 < m), Nat.div_eq_of_lt him]
      omega
    have h2 : (m * k' + (i' - 1)) / m = k' := by
      rw [Nat.mul_add_div (by omega : 0 < m), Nat.div_eq_of_lt him']
      omega

    rw [← h1, ← h2, hbase]
  subst hk
  have : i = i' := by omega
  subst this
  rfl

/-- C1: for every run `k` and every time step `1 ≤ i < numSteps`, the
simulator satisfies the Euler–Maruyama recurrence
`T[i] = T[i-1] + dT_dt(T[i-1], a[i-1])*dt + eta_T*ξ` and
`a[i] = a[i-1] + da_dt(T[i-1], a[i-1])*dt + eta_a*ξ'`, where `ξ` and `ξ'`
are draws of standard deviation `sqrt dt` (`sqrt dt` times a
standard-normal stream entry), and the two stream positions consumed at
`(k, i)` differ from the position of every other (run, step, variable)
draw, so every draw is fresh. -/
theorem eulerMaruyama_step_fresh_noise
    (ω : ℕ → ℝ) (dt etaT etaA Tini aini : ℝ) (numSteps k i : ℕ)
    (hi1 : 1 ≤ i) (hi : i < numSteps) :
    (Tstoc ω dt etaT etaA Tini aini numSteps k i =
        Tstoc ω dt etaT etaA Tini aini numSteps k (i - 1) +
          dT_dt (Tstoc ω dt etaT etaA Tini aini numSteps k (i - 1))
              (Astoc ω dt etaT etaA Tini aini numSteps k (i - 1)) * dt +
          etaT * (Real.sqrt dt * ω (drawIndex numSteps k i 0))) ∧
    (Astoc ω dt etaT etaA Tini aini numSteps k i =
        Astoc ω dt etaT etaA Tini aini numSteps k (i - 1) +
          da_dt (Tstoc ω dt etaT etaA Tini aini numSteps k (i - 1))
              (Astoc ω dt etaT etaA Tini aini numSteps k (i - 1)) * dt +
          etaA * (Real.sqrt dt * ω (drawIndex numSteps k i 1))) ∧
    (∀ k' i' j j' : ℕ, 1 ≤ i' → i' < numSteps → j < 2 → j' < 2 →
        (k, i, j) ≠ (k', i', j') →
        drawIndex numSteps k i j ≠ drawIndex numSteps k' i' j') := by
  obtain ⟨i0, rfl⟩ : ∃ i0, i = i0 + 1 := ⟨i - 1, by omega⟩
  refine ⟨?_, ?_, ?_⟩
  · simp [Tstoc, Astoc, stoc, dW]
  · simp [Tstoc, Astoc, stoc, dW]
  · intro k' i' j j' hi1' hi' hj hj' hne
    exact drawIndex_injOn numSteps k (i0 + 1) j k' i' j' hi1 hi hi1' hi' hj hj' hne

/-- C1 witness: the temperature recurrence at run 0, step 1, with the
constant-1 noise stream and the notebook's parameter values. -/
theorem eulerMaruyama_step_witness :
    Tstoc (fun _ => 1) 1 5 0.01 280 0.35 1000 0 1 =
      Tstoc (fun _ => 1) 1 5 0.01 280 0.35 1000 0 0 +
        dT_dt (Tstoc (fun _ => 1) 1 5 0.01 280 0.35 1000 0 0)
            (Astoc (fun _ => 1) 1 5 0.01 280 0.35 1000 0 0) * 1 +
        5 * (Real.sqrt 1 * (fun _ => (1:ℝ)) (drawIndex 1000 0 1 0)) :=
  (eulerMaruyama_step_fresh_noise (fun _ => 1) 1 5 0.01 280 0.35 1000 0 1
    (by norm_num) (by norm_num)).1

/-- C3: when `eta_T = 0` and `eta_a = 0`, every step of the stochastic
simulator equals the deterministic forward-Euler step exactly, so the
whole zero-noise trajectory coincides with forward-Euler integration of
the coupled system from the same initial state, whatever the noise
stream. -/
theorem zero_noise_eq_euler
    (ω : ℕ → ℝ) (dt etaT etaA Tini aini : ℝ) (numSteps k : ℕ)
    (hT : etaT = 0) (ha : etaA = 0) :
    ∀ i, stoc ω dt etaT etaA Tini aini numSteps k i = euler dt Tini aini i := by
  subst hT
  subst ha
  intro i
  induction i with
  | zero => rfl
  | succ n ih => simp [stoc, euler, ih]

/-- C3 witness: two zero-noise Euler–Maruyama steps coincide with two
forward-Euler steps at concrete inputs. -/
theorem zero_noise_eq_euler_witness :
    stoc (fun _ => 1) 1 0 0 280 0.35 1000 0 2 = euler 1 280 0.35 2 :=
  zero_noise_eq_euler (fun _ => 1) 1 0 0 280 0.35 1000 0 rfl rfl 2

/-- The Euler–Maruyama scheme as a relation: an ensemble `E`
(run ↦ step ↦ state) satisfies the scheme for the noise stream `ω`
exactly when every run starts at the initial state and makes the
notebook's update at every step. -/
def IsEMEnsemble (ω : ℕ → ℝ) (dt etaT etaA Tini aini : ℝ) (numSteps : ℕ)
    (E : ℕ → ℕ → ℝ × ℝ) : Prop :=
  ∀ k, E k 0 = (Tini, aini) ∧
    ∀ i, E k (i + 1) =
      ((E k i).1 + dT_dt (E k i).1 (E k i).2 * dt +
          etaT * dW ω (drawIndex numSteps k (i + 1) 0) dt,
        (E k i).2 + da_dt (E k i).1 (E k i).2 * dt +
          etaA * dW ω (drawIndex numSteps k (i + 1) 1) dt)

/-- Modelled from the spec: `StochasticEnsembleSimulator.run(params,
initialState, dt, numSteps, numRuns, noiseSeed?)`.  The notebook has no
seed parameter — its loop consumes the global unseeded NumPy stream — so
the spec's seeded entry point is modelled here: `seedToStream` abstracts
the seeded PRNG (mapping a seed to the stream of standard-normal draws
it produces), and the ensemble is the Euler–Maruyama loop fed with the
stream derived from `noiseSeed`. -/
noncomputable def run (seedToStream : ℕ → ℕ → ℝ) (noiseSeed : ℕ)
    (dt etaT etaA Tini aini : ℝ) (numSteps : ℕ) : ℕ → ℕ → ℝ × ℝ :=
  fun k => stoc (seedToStream noiseSeed) dt etaT etaA Tini aini numSteps k

/-- C2: `run` is a deterministic function of its inputs including the
seed: its output ensemble satisfies the Euler–Maruyama recurrence for
the seed-derived stream, and any two ensembles satisfying that
recurrence for the same parameters, initial state, time step and seed
are bit-identical; hence two invocations with identical inputs and the
same `noiseSeed` produce bit-identical ensembles. -/
theorem run_deterministic_in_seed
    (seedToStream : ℕ → ℕ → ℝ) (noiseSeed : ℕ)
    (dt etaT etaA Tini aini : ℝ) (numSteps : ℕ) :
    IsEMEnsemble (seedToStream noiseSeed) dt etaT etaA Tini aini numSteps
      (run seedToStream noiseSeed dt etaT etaA Tini aini numSteps) ∧
    ∀ E1 E2 : ℕ → ℕ → ℝ × ℝ,
      IsEMEnsemble (seedToStream noiseSeed) dt etaT etaA Tini aini numSteps E1 →
      IsEMEnsemble (seedToStream noiseSeed) dt etaT etaA Tini aini numSteps E2 →
      ∀ k i, E1 k i = E2 k i := by
  constructor
  · intro k
    exact ⟨rfl, fun i => rfl⟩
  · intro E1 E2 h1 h2 k i
    induction i with
    | zero => rw [(h1 k).1, (h2 k).1]
    | succ n ih => rw [(h1 k).2 n, (h2 k).2 n, ih]

/-- C2 witness: two ensembles satisfying the scheme for the same seed
agree at a concrete grid point. -/
theorem run_deterministic_in_seed_witness :
    run (fun _ _ => 1) 7 1 5 0.01 280 0.35 1000 0 2 =
      run (fun _ _ => 1) 7 1 5 0.01 280 0.35 1000 0 2 :=
  (run_deterministic_in_seed (fun _ _ => 1) 7 1 5 0.01 280 0.35 1000).2
    (run (fun _ _ => 1) 7 1 5 0.01 280 0.35 1000)
    (run (fun _ _ => 1) 7 1 5 0.01 280 0.35 1000)
    (run_deterministic_in_seed (fun _ _ => 1) 7 1 5 0.01 280 0.35 1000).1
    (run_deterministic_in_seed (fun _ _ => 1) 7 1 5 0.01 280 0.35 1000).1
    0 2

/-! ### Ensemble statistics (notebook cells with `std_list`, `mean_list`
and the `std_list/mean_list` histogram) -/

/-- `np.mean` of a 1-D array: the arithmetic mean. -/
noncomputable def np_mean (xs : List ℝ) : ℝ := xs.sum / xs.length

/-- `np.std` of a 1-D array with NumPy's default `ddof = 0`: the
population standard deviation, the square root of the mean squared
deviation (normalised by `N`, not `N - 1`). -/
noncomputable def np_std (xs : List ℝ) : ℝ :=
  Real.sqrt ((xs.map fun x => (x - np_mean xs) ^ 2).sum / xs.length)

/-- `std_list[k] = np.std(Tstoc[k,:])`: per-run standard deviation of the
full temperature series of run `k`. -/
noncomputable def std_list (runs : List (List ℝ)) : List ℝ := runs.map np_std

/-- `mean_list[k] = np.mean(Tstoc[k,:])`: per-run mean of the full
temperature series of run `k`. -/
noncomputable def mean_list (runs : List (List ℝ)) : List ℝ := runs.map np_mean

/-- `std_list/mean_list`: NumPy's elementwise division of the per-run
standard deviations by the per-run means, the per-run coefficient of
variation the notebook histograms. -/
noncomputable def cov_list (runs : List (List ℝ)) : List ℝ :=
  List.zipWith (fun s m => s / m) (std_list runs) (mean_list runs)

/-- Helper: zipping two maps of the same list combines them pointwise. -/
lemma zipWith_map_same {α β γ δ : Type} (f : α → β) (g : α → γ)
    (h : β → γ → δ) (l : List α) :
    List.zipWith h (l.map f) (l.map g) = l.map fun x => h (f x) (g x) := by
  induction l with
  | nil => rfl
  | cons a t ih => simp [ih]

/-- Helper: `getD` through `map`, under an in-bounds index. -/
lemma getD_map_of_lt {α β : Type} (f : α → β) (l : List α) (k : ℕ)
    (hk : k < l.length) (d : α) (d' : β) :
    (l.map f).getD k d' = f (l.getD k d) := by
  have hk' : k < (l.map f).length := by simpa using hk
  rw [List.getD_eq_getElem _ _ hk', List.getD_eq_getElem _ _ hk,
    List.getElem_map]

/-- C10: for each in-range run `k`, `mean_list[k]` is the arithmetic mean
of run `k`'s entire series, `std_list[k]` is its population standard
deviation (mean squared deviation normalised by the number `N` of time
samples, not `N - 1`), and `cov_list[k]` is exactly their quotient; the
final conjunct pins the normalisation down at a concrete series, where
the `N - 1` convention would give `sqrt 2` instead of `1`. -/
theorem perRun_stats_population
    (runs : List (List ℝ)) (k : ℕ) (hk : k < runs.length) :
    (mean_list runs).getD k 0 =
      (runs.getD k []).sum / (runs.getD k []).length ∧
    (std_list runs).getD k 0 =
      Real.sqrt (((runs.getD k []).map fun x =>
          (x - (runs.getD k []).sum / (runs.getD k []).length) ^ 2).sum /
        (runs.getD k []).length) ∧
    (cov_list runs).getD k 0 =
      (std_list runs).getD k 0 / (mean_list runs).getD k 0 ∧
    np_std [0, 2] = 1 := by
  refine ⟨?_, ?_, ?_, ?_⟩
  · rw [mean_list, getD_map_of_lt np_mean runs k hk []]
    rfl
  · rw [std_list, getD_map_of_lt np_std runs k hk []]
    rfl
  · rw [cov_list, std_list, mean_list, zipWith_map_same np_std np_mean,
      getD_map_of_lt _ runs k hk [], getD_map_of_lt np_std runs k hk [],
      getD_map_of_lt np_mean runs k hk []]
  · have hmean : np_mean [0, 2] = 1 := by
      norm_num [np_mean]
    rw [np_std, hmean]
    norm_num

/-- C10 witness: the per-run statistics identities at the one-run
ensemble `[[0, 2]]`. -/
theorem perRun_stats_population_witness :
    (mean_list [[(0:ℝ), 2]]).getD 0 0 =
      ([[(0:ℝ), 2]].getD 0 []).sum / ([[(0:ℝ), 2]].getD 0 []).length ∧
    (std_list [[(0:ℝ), 2]]).getD 0 0 =
      Real.sqrt ((([[(0:ℝ), 2]].getD 0 []).map fun x =>
          (x - ([[(0:ℝ), 2]].getD 0 []).sum / ([[(0:ℝ), 2]].getD 0 []).length) ^ 2).sum /
        ([[(0:ℝ), 2]].getD 0 []).length) ∧
    (cov_list [[(0:ℝ), 2]]).getD 0 0 =
      (std_list [[(0:ℝ), 2]]).getD 0 0 / (mean_list [[(0:ℝ), 2]]).getD 0 0 ∧
    np_std [0, 2] = 1 :=
  perRun_stats_population [[(0:ℝ), 2]] 0 (by norm_num)

/-- C5 counterexample: at the ensemble `[[1, -1]]` the single run has
temporal mean exactly `0`, yet the statistics code still produces a CoV
entry for it — the unconditional elementwise quotient `std/mean`
(`np.std` of the run over `np.mean` of the run, a division by zero) —
rather than signalling any `UndefinedCoV` condition: no such condition
exists anywhere in the code. -/
theorem undefinedCoV_counterexample :
    np_mean [(1:ℝ), -1] = 0 ∧
    np_std [(1:ℝ), -1] = 1 ∧
    (cov_list [[(1:ℝ), -1]]).length = 1 ∧
    (cov_list [[(1:ℝ), -1]]).getD 0 0 =
      np_std [(1:ℝ), -1] / np_mean [(1:ℝ), -1] := by
  have hmean : np_mean [(1:ℝ), -1] = 0 := by
    norm_num [np_mean]
  refine ⟨hmean, ?_, by simp [cov_list, std_list, mean_list], ?_⟩
  · rw [np_std, hmean]
    norm_num
  · simp [cov_list, std_list, mean_list]

/-- C5 amended: for every ensemble and in-range run index whose run has
temporal mean exactly zero, the per-run CoV entry is still produced and
equals the unconditional quotient `np_std/np_mean` of that run — the
division is not guarded, and no `UndefinedCoV` condition is signalled
(in NumPy's arithmetic the quotient is a silent `inf`/`nan`). -/
theorem cov_unconditional_quotient
    (runs : List (List ℝ)) (k : ℕ) (hk : k < runs.length)
    (hzero : np_mean (runs.getD k []) = 0) :
    (cov_list runs).getD k 0 =
      np_std (runs.getD k []) / np_mean (runs.getD k []) := by
  rw [cov_list, std_list, mean_list, zipWith_map_same np_std np_mean,
    getD_map_of_lt _ runs k hk []]

/-- C5 amended witness: the unguarded quotient at the zero-mean run
`[1, -1]`. -/
theorem cov_unconditional_quotient_witness :
    np_mean ([[(1:ℝ), -1]].getD 0 []) = 0 ∧
    (cov_list [[(1:ℝ), -1]]).getD 0 0 =
      np_std ([[(1:ℝ), -1]].getD 0 []) / np_mean ([[(1:ℝ), -1]].getD 0 []) :=
  ⟨by norm_num [np_mean],
    cov_unconditional_quotient [[(1:ℝ), -1]] 0 (by norm_num)
      (by norm_num [np_mean])⟩

/-! ### Deterministic integration (notebook cell
`State_sol = odeint(dState_dt, State_init, timepoints)`)

`scipy.integrate.odeint`'s LSODA core is external compiled code, so only
its sampling contract is modelled: it returns the initial state as the
first output row and one row per requested time point, each subsequent
row obtained by advancing the solution of `dState_dt` from the previous
requested time to the next.  The numerical advance is abstracted as a
function `step` (current state, current time, next time ↦ next state);
the shape theorem below holds for every such advance map, in particular
for the one LSODA realises for `dState_dt`. -/

/-- `State_init = [T_init, a_init]`. -/
noncomputable def State_init : ℝ × ℝ := (T_init, a_init)

/-- Samples after the first: advance with `step` across each consecutive
pair of requested time points. -/
def odeintAux (step : ℝ × ℝ → ℝ → ℝ → ℝ × ℝ) :
    ℝ × ℝ → ℝ → List ℝ → List (ℝ × ℝ)
  | _, _, [] => []
  | y, t, t' :: rest => step y t t' :: odeintAux step (step y t t') t' rest

/-- Modelled from the spec: `DeterministicIntegrator.integrate` /
`odeint(func, y0, t)` — the trajectory sampled at the requested time
points, whose first sample is the initial state `y0`. -/
def odeint (step : ℝ × ℝ → ℝ → ℝ → ℝ × ℝ) (y0 : ℝ × ℝ) (ts : List ℝ) :
    List (ℝ × ℝ) :=
  match ts with
  | [] => []
  | t0 :: rest => y0 :: odeintAux step y0 t0 rest

/-- Helper: `odeintAux` yields one sample per remaining time point. -/
lemma odeintAux_length (step : ℝ × ℝ → ℝ → ℝ → ℝ × ℝ) :
    ∀ (ts : List ℝ) (y : ℝ × ℝ) (t : ℝ),
      (odeintAux step y t ts).length = ts.length := by
  intro ts
  induction ts with
  | nil => intro y t; rfl
  | cons t' rest ih =>
    intro y t
    simp [odeintAux, ih]

/-- C9: for every advance map, every initial state and every strictly
increasing time grid of length at least 2, the integrator returns exactly
as many samples as requested time points and its first sample is the
initial state. -/
theorem integrate_shape
    (step : ℝ × ℝ → ℝ → ℝ → ℝ × ℝ) (y0 : ℝ × ℝ) (ts : List ℝ)
    (hlen : 2 ≤ ts.length) (hmono : List.Chain' (fun a b => a < b) ts) :
    (odeint step y0 ts).length = ts.length ∧
    (odeint step y0 ts).head? = some y0 := by
  match ts, hlen with
  | t0 :: rest, _ =>
    refine ⟨?_, rfl⟩
    simp [odeint, odeintAux_length]

/-- C9 witness: the shape contract on the grid `[0, 1]` from
`State_init`, with a concrete advance map. -/
theorem integrate_shape_witness :
    (odeint (fun y _ _ => y) State_init [0, 1]).length = ([(0:ℝ), 1]).length ∧
    (odeint (fun y _ _ => y) State_init [0, 1]).head? = some State_init :=
  integrate_shape (fun y _ _ => y) State_init [0, 1] (by norm_num)
    (by norm_num [List.chain'_cons])
